import Mathlib

/-!
Shallow embedding of the comparison engine of the locked-fund (Keren
Hishtalmut) vs personal investment calculator, translated from
src/src/calculator.py and src/src/models.py, together with theorems checking
the specification claims against it.

Modelling conventions:
* Python floats are modelled as real numbers.  A float power with a
  fractional exponent is Real.rpow; growth over an integer number of years or
  months is the natural-number power on ℝ.
* A Python function that can raise ZeroDivisionError is modelled as an
  Option-valued function that returns none exactly when the division by zero
  occurs; callers propagate the none.
* The float inf sentinel of calculate_required_return is modelled as none.
* The pandas layer is modelled as lists: the sensitivity matrix is one
  association list per personal return, keyed like the program's row dicts
  by the whole-percent tax label (so equally-labelled tax rates overwrite
  one key), a cell value being some y for a breakeven year y and none for
  the beyond-ceiling display token.
-/

namespace KerenCalc

noncomputable section

/-- Input record, from the InvestmentInputs dataclass in src/src/models.py. -/
structure InvestmentInputs where
  principal : ℝ
  monthly_contribution : ℝ
  keren_gross_return : ℝ
  keren_mgmt_fee : ℝ
  keren_return_is_net : Bool
  personal_return : ℝ
  capital_gains_tax : ℝ
  annual_tax_drag : ℝ
  include_tax_drag : Bool
  horizon_years : ℕ
  keren_lockup_years : ℕ

/-- InvestmentInputs.get_keren_net_return from src/src/models.py. -/
def InvestmentInputs.get_keren_net_return (i : InvestmentInputs) : ℝ :=
  if i.keren_return_is_net then i.keren_gross_return
  else (1 + i.keren_gross_return) * (1 - i.keren_mgmt_fee) - 1

/-- InvestmentInputs.get_personal_effective_return from src/src/models.py. -/
def InvestmentInputs.get_personal_effective_return (i : InvestmentInputs) : ℝ :=
  if i.include_tax_drag then i.personal_return - i.annual_tax_drag
  else i.personal_return

/-- One row of the yearly series, from the YearlyResult dataclass in
src/src/models.py. -/
structure YearlyResult where
  year : ℕ
  keren_fv : ℝ
  personal_fv_pretax : ℝ
  personal_fv_aftertax : ℝ
  keren_wins : Bool

/-- YearlyResult.difference property from src/src/models.py. -/
def YearlyResult.difference (yr : YearlyResult) : ℝ :=
  yr.personal_fv_aftertax - yr.keren_fv

/-- YearlyResult.difference_pct property from src/src/models.py. -/
def YearlyResult.difference_pct (yr : YearlyResult) : ℝ :=
  if yr.keren_fv = 0 then 0
  else (yr.personal_fv_aftertax - yr.keren_fv) / yr.keren_fv * 100

/-- Result record, from the ComparisonResult dataclass in src/src/models.py. -/
structure ComparisonResult where
  inputs : InvestmentInputs
  yearly_results : List YearlyResult
  breakeven_year : Option ℕ
  keren_net_return : ℝ
  personal_effective_return : ℝ

/-- calculate_keren_fv from src/src/calculator.py.  Returns none when the
annuity branch divides by a zero monthly rate (Python ZeroDivisionError). -/
def calculate_keren_fv (principal net_return : ℝ) (years : ℕ)
    (monthly_contribution : ℝ) : Option ℝ :=
  let fv_lump := principal * (1 + net_return) ^ years
  if monthly_contribution > 0 ∧ years > 0 then
    let monthly_rate := (1 + net_return) ^ ((1 : ℝ) / 12) - 1
    if monthly_rate = 0 then none
    else
      some (fv_lump +
        monthly_contribution *
          (((1 + monthly_rate) ^ (years * 12) - 1) / monthly_rate))
  else some (fv_lump + 0)

/-- calculate_personal_fv_pretax from src/src/calculator.py.  Same body as
calculate_keren_fv, on the raw personal return rate. -/
def calculate_personal_fv_pretax (principal return_rate : ℝ) (years : ℕ)
    (monthly_contribution : ℝ) : Option ℝ :=
  let fv_lump := principal * (1 + return_rate) ^ years
  if monthly_contribution > 0 ∧ years > 0 then
    let monthly_rate := (1 + return_rate) ^ ((1 : ℝ) / 12) - 1
    if monthly_rate = 0 then none
    else
      some (fv_lump +
        monthly_contribution *
          (((1 + monthly_rate) ^ (years * 12) - 1) / monthly_rate))
  else some (fv_lump + 0)

/-- calculate_personal_fv_aftertax from src/src/calculator.py.  The per-month
loop over range(1, years*12+1) is the sum over Finset.Icc 1 (years*12); it
contains no division, so the function is total. -/
def calculate_personal_fv_aftertax (principal return_rate : ℝ) (years : ℕ)
    (tax_rate monthly_contribution : ℝ) : ℝ :=
  let fv_lump :=
    if principal > 0 then
      let fv_lump_pretax := principal * (1 + return_rate) ^ years
      let gain_lump := fv_lump_pretax - principal
      principal + gain_lump * (1 - tax_rate)
    else 0
  let fv_contributions :=
    if monthly_contribution > 0 ∧ years > 0 then
      let monthly_rate := (1 + return_rate) ^ ((1 : ℝ) / 12) - 1
      ∑ month ∈ Finset.Icc 1 (years * 12),
        (monthly_contribution +
          (monthly_contribution * (1 + monthly_rate) ^ (years * 12 - month + 1) -
              monthly_contribution) * (1 - tax_rate))
    else 0
  fv_lump + fv_contributions

/-- calculate_required_return from src/src/calculator.py.  The float inf
sentinel is modelled as none. -/
def calculate_required_return (keren_net_return tax_rate : ℝ) (years : ℕ) :
    Option ℝ :=
  let keren_fv_factor := (1 + keren_net_return) ^ years
  let numerator := keren_fv_factor - tax_rate
  let denominator := 1 - tax_rate
  if denominator ≤ 0 ∨ numerator ≤ 0 then none
  else some ((numerator / denominator) ^ ((1 : ℝ) / (years : ℝ)) - 1)

/-- Body of one iteration of the search loop of find_breakeven_year from
src/src/calculator.py: whether the personal after-tax value has reached the
fund value at the given year; none when a fund valuation divides by zero. -/
def breakevenCheck (principal keren_net_return personal_return tax_rate
    monthly_contribution : ℝ) (keren_lockup_years : ℕ) (keren_at_lockup : ℝ)
    (year : ℕ) : Option Bool :=
  (calculate_keren_fv principal keren_net_return year monthly_contribution).bind
    fun keren_fv =>
      let years_since_lockup := year - keren_lockup_years
      (calculate_personal_fv_pretax keren_at_lockup personal_return
          years_since_lockup 0).bind fun lump_sum_pretax =>
        let lump_sum_gain := lump_sum_pretax - keren_at_lockup
        let lump_sum_aftertax := keren_at_lockup + lump_sum_gain * (1 - tax_rate)
        let contributions_aftertax := calculate_personal_fv_aftertax 0
          personal_return years_since_lockup tax_rate monthly_contribution
        let personal_fv := lump_sum_aftertax + contributions_aftertax
        some (if personal_fv ≥ keren_fv then true else false)

/-- The for-loop of find_breakeven_year: return the first year whose check is
true, none (inner) when the loop falls through, none (outer) on a raised
ZeroDivisionError. -/
def breakevenLoop (f : ℕ → Option Bool) : List ℕ → Option (Option ℕ)
  | [] => some none
  | year :: rest =>
    (f year).bind fun hit =>
      if hit then some (some year) else breakevenLoop f rest

/-- find_breakeven_year from src/src/calculator.py.  range(lockup+1, max+1)
is List.range' (lockup+1) (max - lockup). -/
def find_breakeven_year (principal keren_net_return personal_return tax_rate
    monthly_contribution : ℝ) (max_years keren_lockup_years : ℕ) :
    Option (Option ℕ) :=
  (calculate_keren_fv principal keren_net_return keren_lockup_years
      monthly_contribution).bind fun keren_at_lockup =>
    breakevenLoop
      (breakevenCheck principal keren_net_return personal_return tax_rate
        monthly_contribution keren_lockup_years keren_at_lockup)
      (List.range' (keren_lockup_years + 1) (max_years - keren_lockup_years))

/-- The Option B branch of the per-year body of run_comparison from
src/src/calculator.py: the pair (personal_fv_pretax, personal_fv_aftertax). -/
def personalPair (inputs : InvestmentInputs) (personal_effective_return : ℝ)
    (lockup : ℕ) (keren_at_lockup : ℝ) (year : ℕ) (keren_fv : ℝ) :
    Option (ℝ × ℝ) :=
  if year ≤ lockup then some (keren_fv, keren_fv)
  else
    let years_since_lockup := year - lockup
    (calculate_personal_fv_pretax keren_at_lockup personal_effective_return
        years_since_lockup 0).bind fun lump_sum_pretax =>
      (calculate_personal_fv_pretax 0 personal_effective_return
          years_since_lockup inputs.monthly_contribution).bind
        fun contributions_pretax =>
          let personal_fv_pretax := lump_sum_pretax + contributions_pretax
          let lump_sum_gain := lump_sum_pretax - keren_at_lockup
          let lump_sum_aftertax :=
            keren_at_lockup + lump_sum_gain * (1 - inputs.capital_gains_tax)
          let contributions_aftertax := calculate_personal_fv_aftertax 0
            personal_effective_return years_since_lockup
            inputs.capital_gains_tax inputs.monthly_contribution
          some (personal_fv_pretax, lump_sum_aftertax + contributions_aftertax)

/-- The per-year body of the loop of run_comparison, producing one
YearlyResult. -/
def runYear (inputs : InvestmentInputs) (keren_net_return
    personal_effective_return : ℝ) (lockup : ℕ) (keren_at_lockup : ℝ)
    (year : ℕ) : Option YearlyResult :=
  (calculate_keren_fv inputs.principal keren_net_return year
      inputs.monthly_contribution).bind fun keren_fv =>
    (personalPair inputs personal_effective_return lockup keren_at_lockup year
        keren_fv).bind fun pa =>
      some { year := year, keren_fv := keren_fv, personal_fv_pretax := pa.1,
             personal_fv_aftertax := pa.2,
             keren_wins := if keren_fv > pa.2 then true else false }

/-- The year loop of run_comparison, accumulating the yearly list and the
first-breakeven tracker exactly as the Python loop does. -/
def comparisonLoop (f : ℕ → Option YearlyResult) (lockup : ℕ) :
    List ℕ → List YearlyResult × Option ℕ →
      Option (List YearlyResult × Option ℕ)
  | [], acc => some acc
  | year :: rest, acc =>
    (f year).bind fun yr =>
      comparisonLoop f lockup rest (acc.1 ++ [yr],
        if acc.2 = none ∧ yr.keren_wins = false ∧ year > lockup
        then some year else acc.2)

/-- run_comparison from src/src/calculator.py. -/
def run_comparison (inputs : InvestmentInputs) : Option ComparisonResult :=
  let keren_net_return := inputs.get_keren_net_return
  let personal_effective_return := inputs.get_personal_effective_return
  let lockup := inputs.keren_lockup_years
  (calculate_keren_fv inputs.principal keren_net_return lockup
      inputs.monthly_contribution).bind fun keren_at_lockup =>
    (comparisonLoop
        (runYear inputs keren_net_return personal_effective_return lockup
          keren_at_lockup)
        lockup (List.range' 1 inputs.horizon_years) ([], none)).bind fun acc =>
      some { inputs := inputs, yearly_results := acc.1,
             breakeven_year := acc.2, keren_net_return := keren_net_return,
             personal_effective_return := personal_effective_return }

/-- Collect an Option-valued map over a list, propagating the first failure:
the shape of the Python for-loops that build lists while any iteration may
raise. -/
def mapO {α β : Type} (f : α → Option β) : List α → Option (List β)
  | [] => some []
  | a :: l =>
    (f a).bind fun b => (mapO f l).bind fun bs => some (b :: bs)

/-- The column key of a tax rate in the sensitivity grid.  The code keys
each row cell by the formatted percent label of tr (the f-string
Tax ...percent with no decimals), so only tr times 100 rounded to the
nearest integer, ties to even as float formatting rounds, distinguishes
columns; the key is modelled as that integer. -/
def taxLabel (tr : ℝ) : ℤ :=
  if Int.fract (tr * 100) = 1 / 2 then
    (if Even ⌊tr * 100⌋ then ⌊tr * 100⌋ else ⌊tr * 100⌋ + 1)
  else round (tr * 100)

/-- A Python dict assignment on an association list: an existing binding of
the key is overwritten in place, a new key is appended at the end (dicts
preserve insertion order). -/
def dictInsert {α β : Type} [DecidableEq α] (k : α) (v : β) :
    List (α × β) → List (α × β)
  | [] => [(k, v)]
  | (k', v') :: rest =>
    if k' = k then (k, v) :: rest else (k', v') :: dictInsert k v rest

/-- The inner loop of generate_sensitivity_matrix from
src/src/calculator.py: fill one row dict with one find_breakeven_year call
per tax rate, keyed by the formatted tax label (equal labels overwrite the
same key).  A cell value is some y for a breakeven year and none for the
beyond-ceiling display token; the outer none propagates a raised
ZeroDivisionError. -/
def sensitivityRow (principal keren_net_return pr monthly_contribution : ℝ)
    (max_years keren_lockup_years : ℕ) :
    List ℝ → List (ℤ × Option ℕ) → Option (List (ℤ × Option ℕ))
  | [], row => some row
  | tr :: rest, row =>
    (find_breakeven_year principal keren_net_return pr tr
        monthly_contribution max_years keren_lockup_years).bind
      fun be_year =>
        sensitivityRow principal keren_net_return pr monthly_contribution
          max_years keren_lockup_years rest
          (dictInsert (taxLabel tr) be_year row)

/-- generate_sensitivity_matrix from src/src/calculator.py: one row dict
per personal return (rows are separate dicts in a list and never collapse),
the cells of each row built by sensitivityRow starting from the empty
dict. -/
def generate_sensitivity_matrix (principal keren_net_return : ℝ)
    (personal_returns tax_rates : List ℝ) (monthly_contribution : ℝ)
    (max_years keren_lockup_years : ℕ) :
    Option (List (List (ℤ × Option ℕ))) :=
  mapO (fun pr =>
    sensitivityRow principal keren_net_return pr monthly_contribution
      max_years keren_lockup_years tax_rates []) personal_returns

/-- Spec-side reading of the break-even consistency property: the first year
strictly greater than the lockup year in a yearly series whose keren_wins
flag is false. -/
def firstPersonalWinYear (lockup : ℕ) (rows : List YearlyResult) : Option ℕ :=
  (rows.find? fun yr => decide (lockup < yr.year) && !yr.keren_wins).map
    YearlyResult.year

/-- The value the first-breakeven tracker of run_comparison has after folding
a block of rows, starting from tracker state be0. -/
def updateBE (lockup : ℕ) (be0 : Option ℕ) (rows : List YearlyResult) :
    Option ℕ :=
  match be0 with
  | some b => some b
  | none => firstPersonalWinYear lockup rows

/-! Helper lemmas about the primitives. -/

lemma keren_fv_no_contrib (P r : ℝ) (y : ℕ) :
    calculate_keren_fv P r y 0 = some (P * (1 + r) ^ y + 0) := by
  simp only [calculate_keren_fv]
  rw [if_neg (show ¬((0 : ℝ) > 0 ∧ y > 0) by simp)]

lemma pretax_no_contrib (P r : ℝ) (y : ℕ) :
    calculate_personal_fv_pretax P r y 0 = some (P * (1 + r) ^ y + 0) := by
  simp only [calculate_personal_fv_pretax]
  rw [if_neg (show ¬((0 : ℝ) > 0 ∧ y > 0) by simp)]

lemma aftertax_no_contrib (P r τ : ℝ) (y : ℕ) :
    calculate_personal_fv_aftertax P r y τ 0 =
      (if P > 0 then P + (P * (1 + r) ^ y - P) * (1 - τ) else 0) + 0 := by
  simp only [calculate_personal_fv_aftertax]
  rw [if_neg (show ¬((0 : ℝ) > 0 ∧ y > 0) by simp)]

/-! Infrastructure lemmas about mapO, the loops and find?. -/

lemma mapO_forall_some {α β : Type} (f : α → Option β) :
    ∀ (l : List α) (bs : List β), mapO f l = some bs →
      ∀ a ∈ l, ∃ b, f a = some b := by
  intro l
  induction l with
  | nil => intro bs _ a ha; simp at ha
  | cons x l ih =>
    intro bs h a ha
    simp only [mapO, Option.bind_eq_some, Option.some.injEq] at h
    obtain ⟨b, hb, bs', hbs', rfl⟩ := h
    rcases List.mem_cons.mp ha with rfl | ha'
    · exact ⟨b, hb⟩
    · exact ih bs' hbs' a ha'

lemma mapO_mem {α β : Type} (f : α → Option β) :
    ∀ (l : List α) (bs : List β), mapO f l = some bs →
      ∀ b ∈ bs, ∃ a ∈ l, f a = some b := by
  intro l
  induction l with
  | nil =>
    intro bs h b hb
    obtain rfl := Option.some.inj h
    simp at hb
  | cons x l ih =>
    intro bs h b hb
    simp only [mapO, Option.bind_eq_some, Option.some.injEq] at h
    obtain ⟨b', hb', bs', hbs', rfl⟩ := h
    rcases List.mem_cons.mp hb with rfl | hbmem
    · exact ⟨x, List.mem_cons_self x l, hb'⟩
    · obtain ⟨a, ha, hfa⟩ := ih bs' hbs' b hbmem
      exact ⟨a, List.mem_cons_of_mem x ha, hfa⟩

lemma mapO_length {α β : Type} (f : α → Option β) :
    ∀ (l : List α) (bs : List β), mapO f l = some bs →
      bs.length = l.length := by
  intro l
  induction l with
  | nil =>
    intro bs h
    obtain rfl := Option.some.inj h
    rfl
  | cons x l ih =>
    intro bs h
    simp only [mapO, Option.bind_eq_some, Option.some.injEq] at h
    obtain ⟨b, _, bs', hbs', rfl⟩ := h
    simp [ih bs' hbs']

lemma list_find?_congr {α : Type} (p q : α → Bool) :
    ∀ l : List α, (∀ a ∈ l, p a = q a) → l.find? p = l.find? q := by
  intro l
  induction l with
  | nil => intro _; rfl
  | cons x l ih =>
    intro h
    have hx := h x (List.mem_cons_self x l)
    cases hq : q x with
    | true =>
      rw [List.find?_cons_of_pos _ (by rw [hx, hq]),
        List.find?_cons_of_pos _ hq]
    | false =>
      rw [List.find?_cons_of_neg _ (by rw [hx, hq]; simp),
        List.find?_cons_of_neg _ (by rw [hq]; simp)]
      exact ih fun a ha => h a (List.mem_cons_of_mem x ha)

lemma breakevenLoop_eq_find? (f : ℕ → Option Bool) (g : ℕ → Bool) :
    ∀ l : List ℕ, (∀ y ∈ l, f y = some (g y)) →
      breakevenLoop f l = some (l.find? g) := by
  intro l
  induction l with
  | nil => intro _; rfl
  | cons y l ih =>
    intro h
    rw [breakevenLoop, h y (List.mem_cons_self y l)]
    simp only [Option.some_bind]
    cases hg : g y with
    | true =>
      rw [if_pos rfl, List.find?_cons_of_pos _ hg]
    | false =>
      rw [if_neg (by simp), List.find?_cons_of_neg _ (by simp [hg])]
      exact ih fun z hz => h z (List.mem_cons_of_mem y hz)

lemma breakevenLoop_mem (f : ℕ → Option Bool) :
    ∀ (l : List ℕ) (y : ℕ), breakevenLoop f l = some (some y) → y ∈ l := by
  intro l
  induction l with
  | nil => intro y h; simp [breakevenLoop] at h
  | cons z l ih =>
    intro y h
    rw [breakevenLoop] at h
    cases hz : f z with
    | none => rw [hz] at h; simp at h
    | some hit =>
      rw [hz] at h
      simp only [Option.some_bind] at h
      cases hit with
      | true =>
        rw [if_pos rfl] at h
        have hzy : z = y := by simpa using h
        exact hzy ▸ List.mem_cons_self z l
      | false =>
        rw [if_neg (by simp)] at h
        exact List.mem_cons_of_mem z (ih y h)

lemma find?_range'_split (q : ℕ → Bool) (lockup horizon : ℕ)
    (hq : ∀ y, y ≤ lockup → q y = false) :
    (List.range' 1 horizon).find? q =
      (List.range' (lockup + 1) (horizon - lockup)).find? q := by
  by_cases h : lockup ≤ horizon
  · have hsplit : List.range' 1 lockup ++
        List.range' (lockup + 1) (horizon - lockup) =
        List.range' 1 horizon := by
      have happ := List.range'_append_1 1 lockup (horizon - lockup)
      rw [show 1 + lockup = lockup + 1 from Nat.add_comm 1 lockup] at happ
      rw [happ]
      congr 1
      omega
    rw [← hsplit, List.find?_append]
    have hnone : (List.range' 1 lockup).find? q = none := by
      rw [List.find?_eq_none]
      intro y hy
      have hmem := List.mem_range'_1.mp hy
      simp [hq y (by omega)]
    rw [hnone, Option.none_or]
  · have h0 : horizon - lockup = 0 := by omega
    rw [h0]
    have hnone : (List.range' 1 horizon).find? q = none := by
      rw [List.find?_eq_none]
      intro y hy
      have hmem := List.mem_range'_1.mp hy
      simp [hq y (by omega)]
    rw [hnone]
    rfl

lemma runYear_year (inputs : InvestmentInputs) (kr pe : ℝ) (lockup : ℕ)
    (kal : ℝ) (year : ℕ) (yr : YearlyResult)
    (h : runYear inputs kr pe lockup kal year = some yr) : yr.year = year := by
  simp only [runYear, Option.bind_eq_some, Option.some.injEq] at h
  obtain ⟨kfv, _, pa, _, rfl⟩ := h
  rfl

lemma breakevenCheck_of_runYear (inputs : InvestmentInputs) (kr pe : ℝ)
    (lockup : ℕ) (kal : ℝ) (year : ℕ) (yr : YearlyResult)
    (hlt : lockup < year)
    (h : runYear inputs kr pe lockup kal year = some yr) :
    breakevenCheck inputs.principal kr pe inputs.capital_gains_tax
      inputs.monthly_contribution lockup kal year = some (!yr.keren_wins) := by
  simp only [runYear, Option.bind_eq_some, Option.some.injEq] at h
  obtain ⟨kfv, hk, pa, hpa, rfl⟩ := h
  rw [personalPair, if_neg (Nat.not_le.mpr hlt)] at hpa
  simp only [Option.bind_eq_some, Option.some.injEq] at hpa
  obtain ⟨lsp, hlsp, cp, hcp, rfl⟩ := hpa
  rw [breakevenCheck, hk]
  simp only [Option.some_bind]
  rw [hlsp]
  simp only [Option.some_bind]
  rw [Option.some.injEq]
  dsimp only
  by_cases hgt : kfv > kal +
      (lsp - kal) * (1 - inputs.capital_gains_tax) +
      calculate_personal_fv_aftertax 0 pe (year - lockup)
        inputs.capital_gains_tax inputs.monthly_contribution
  · rw [if_pos hgt, if_neg (not_le.mpr hgt)]
    rfl
  · rw [if_neg hgt, if_pos (not_lt.mp hgt)]
    rfl

lemma updateBE_step (lockup y : ℕ) (yr : YearlyResult) (be : Option ℕ)
    (rows : List YearlyResult) (hyear : yr.year = y) :
    updateBE lockup
      (if be = none ∧ yr.keren_wins = false ∧ y > lockup then some y else be)
      rows = updateBE lockup be (yr :: rows) := by
  cases be with
  | some b => rw [if_neg (by simp)]; rfl
  | none =>
    by_cases hc : yr.keren_wins = false ∧ y > lockup
    · rw [if_pos ⟨rfl, hc⟩]
      show some y = firstPersonalWinYear lockup (yr :: rows)
      rw [firstPersonalWinYear, List.find?_cons_of_pos _ (by simp [hyear, hc.1, hc.2])]
      simp [hyear]
    · rw [if_neg fun hh => hc ⟨hh.2.1, hh.2.2⟩]
      show firstPersonalWinYear lockup rows =
        firstPersonalWinYear lockup (yr :: rows)
      rw [firstPersonalWinYear, firstPersonalWinYear,
        List.find?_cons_of_neg]
      simp only [hyear]
      cases hkw : yr.keren_wins with
      | false =>
        have hnl : ¬(lockup < y) := fun hgt => hc ⟨hkw, hgt⟩
        simp [hnl]
      | true => simp [hkw]

lemma comparisonLoop_char (f : ℕ → Option YearlyResult) (lockup : ℕ)
    (hf : ∀ y yr, f y = some yr → yr.year = y) :
    ∀ (l : List ℕ) (acc : List YearlyResult × Option ℕ),
      comparisonLoop f lockup l acc =
        (mapO f l).map fun rows =>
          (acc.1 ++ rows, updateBE lockup acc.2 rows) := by
  intro l
  induction l with
  | nil =>
    intro acc
    obtain ⟨a, b⟩ := acc
    cases b <;>
      simp [comparisonLoop, mapO, updateBE, firstPersonalWinYear]
  | cons y l ih =>
    intro acc
    obtain ⟨a, be⟩ := acc
    rw [comparisonLoop]
    cases hy : f y with
    | none => simp [mapO, hy]
    | some yr =>
      simp only [Option.some_bind]
      rw [ih]
      cases hl : mapO f l with
      | none => simp [mapO, hy, hl]
      | some rows =>
        simp only [mapO, hy, hl, Option.some_bind, Option.map_some',
          Option.some.injEq]
        refine Prod.ext ?_ ?_
        · simp
        · exact updateBE_step lockup y yr be rows (hf y yr hy)

lemma breakeven_year_bounds (p kr pr τ m : ℝ) (max_years lockup y : ℕ)
    (h : find_breakeven_year p kr pr τ m max_years lockup = some (some y)) :
    lockup < y ∧ y ≤ max_years := by
  simp only [find_breakeven_year, Option.bind_eq_some] at h
  obtain ⟨kal, _, hloop⟩ := h
  have hmem := breakevenLoop_mem _ _ _ hloop
  have hb := List.mem_range'_1.mp hmem
  omega

lemma dictInsert_fst {β : Type} (k : ℤ) (v : β) :
    ∀ d : List (ℤ × β), (dictInsert k v d).map Prod.fst =
      if k ∈ d.map Prod.fst then d.map Prod.fst
      else d.map Prod.fst ++ [k] := by
  intro d
  induction d with
  | nil => simp [dictInsert]
  | cons hd d ih =>
    obtain ⟨k', v'⟩ := hd
    rw [dictInsert]
    by_cases hk : k' = k
    · subst hk
      rw [if_pos rfl]
      simp
    · rw [if_neg hk, List.map_cons, List.map_cons, ih]
      have hk2 : ¬k = k' := fun h => hk h.symm
      by_cases hmem : k ∈ d.map Prod.fst
      · rw [if_pos hmem, if_pos (by simp [hmem])]
      · rw [if_neg hmem, if_neg (by simp [hmem, hk2])]
        simp

lemma dictInsert_length {β : Type} (k : ℤ) (v : β) :
    ∀ d : List (ℤ × β), (dictInsert k v d).length =
      if k ∈ d.map Prod.fst then d.length else d.length + 1 := by
  intro d
  induction d with
  | nil => simp [dictInsert]
  | cons hd d ih =>
    obtain ⟨k', v'⟩ := hd
    rw [dictInsert]
    by_cases hk : k' = k
    · subst hk
      rw [if_pos rfl]
      simp
    · rw [if_neg hk, List.length_cons, ih]
      have hk2 : ¬k = k' := fun h => hk h.symm
      by_cases hmem : k ∈ d.map Prod.fst
      · rw [if_pos hmem, if_pos (by simp [hmem])]
        simp
      · rw [if_neg hmem, if_neg (by simp [hmem, hk2])]
        simp

lemma dictInsert_mem {β : Type} (k : ℤ) (v : β) :
    ∀ (d : List (ℤ × β)) (c : ℤ × β), c ∈ dictInsert k v d →
      c = (k, v) ∨ c ∈ d := by
  intro d
  induction d with
  | nil =>
    intro c hc
    simp [dictInsert] at hc
    exact Or.inl hc
  | cons hd d ih =>
    obtain ⟨k', v'⟩ := hd
    intro c hc
    rw [dictInsert] at hc
    by_cases hk : k' = k
    · rw [if_pos hk] at hc
      rcases List.mem_cons.mp hc with rfl | hmem
      · exact Or.inl rfl
      · exact Or.inr (List.mem_cons_of_mem _ hmem)
    · rw [if_neg hk] at hc
      rcases List.mem_cons.mp hc with rfl | hmem
      · exact Or.inr (List.mem_cons_self _ _)
      · rcases ih c hmem with h1 | h2
        · exact Or.inl h1
        · exact Or.inr (List.mem_cons_of_mem _ h2)

lemma sensitivityRow_length_le (p kr pr m : ℝ) (max_years lockup : ℕ) :
    ∀ (l : List ℝ) (row0 row : List (ℤ × Option ℕ)),
      sensitivityRow p kr pr m max_years lockup l row0 = some row →
      row.length ≤ row0.length + l.length := by
  intro l
  induction l with
  | nil =>
    intro row0 row h
    obtain rfl := Option.some.inj h
    simp
  | cons tr rest ih =>
    intro row0 row h
    simp only [sensitivityRow, Option.bind_eq_some] at h
    obtain ⟨be, hbe, hrec⟩ := h
    have hrest := ih (dictInsert (taxLabel tr) be row0) row hrec
    have hins : (dictInsert (taxLabel tr) be row0).length ≤
        row0.length + 1 := by
      rw [dictInsert_length]
      split_ifs <;> omega
    simp only [List.length_cons]
    omega

lemma sensitivityRow_length_nodup (p kr pr m : ℝ) (max_years lockup : ℕ) :
    ∀ (l : List ℝ) (row0 row : List (ℤ × Option ℕ)),
      (l.map taxLabel).Nodup →
      (∀ tr ∈ l, taxLabel tr ∉ row0.map Prod.fst) →
      sensitivityRow p kr pr m max_years lockup l row0 = some row →
      row.length = row0.length + l.length := by
  intro l
  induction l with
  | nil =>
    intro row0 row _ _ h
    obtain rfl := Option.some.inj h
    simp
  | cons tr rest ih =>
    intro row0 row hnd hnotin h
    simp only [sensitivityRow, Option.bind_eq_some] at h
    obtain ⟨be, hbe, hrec⟩ := h
    rw [List.map_cons, List.nodup_cons] at hnd
    obtain ⟨hhd, htl⟩ := hnd
    have hk : taxLabel tr ∉ row0.map Prod.fst :=
      hnotin tr (List.mem_cons_self tr rest)
    have hkeys := dictInsert_fst (taxLabel tr) be row0
    rw [if_neg hk] at hkeys
    have hlen := dictInsert_length (taxLabel tr) be row0
    rw [if_neg hk] at hlen
    have hnotin' : ∀ tr' ∈ rest, taxLabel tr' ∉
        (dictInsert (taxLabel tr) be row0).map Prod.fst := by
      intro tr' htr'
      rw [hkeys]
      simp only [List.mem_append, List.mem_singleton]
      rintro (hmem | heq)
      · exact hnotin tr' (List.mem_cons_of_mem tr htr') hmem
      · exact hhd (heq ▸ List.mem_map_of_mem taxLabel htr')
    have hrest := ih (dictInsert (taxLabel tr) be row0) row htl hnotin' hrec
    rw [hrest, hlen]
    simp only [List.length_cons]
    omega

lemma sensitivityRow_cells (p kr pr m : ℝ) (max_years lockup : ℕ) :
    ∀ (l : List ℝ) (row0 row : List (ℤ × Option ℕ)),
      sensitivityRow p kr pr m max_years lockup l row0 = some row →
      ∀ cell ∈ row, cell ∈ row0 ∨ ∃ tr : ℝ,
        find_breakeven_year p kr pr tr m max_years lockup =
          some cell.2 := by
  intro l
  induction l with
  | nil =>
    intro row0 row h cell hc
    obtain rfl := Option.some.inj h
    exact Or.inl hc
  | cons tr rest ih =>
    intro row0 row h cell hc
    simp only [sensitivityRow, Option.bind_eq_some] at h
    obtain ⟨be, hbe, hrec⟩ := h
    rcases ih _ row hrec cell hc with hmem | hex
    · rcases dictInsert_mem _ _ _ _ hmem with rfl | hmem0
      · exact Or.inr ⟨tr, hbe⟩
      · exact Or.inl hmem0
    · exact Or.inr hex

lemma find?_mapO (F : ℕ → Option YearlyResult) (p : YearlyResult → Bool)
    (hF : ∀ y yr, F y = some yr → yr.year = y) :
    ∀ (l : List ℕ) (rows : List YearlyResult), mapO F l = some rows →
      (rows.find? p).map YearlyResult.year =
        l.find? fun y => ((F y).map p).getD false := by
  intro l
  induction l with
  | nil =>
    intro rows h
    obtain rfl := Option.some.inj h
    rfl
  | cons y l ih =>
    intro rows h
    simp only [mapO, Option.bind_eq_some, Option.some.injEq] at h
    obtain ⟨yr, hyr, rows', hrows', rfl⟩ := h
    cases hp : p yr with
    | true =>
      rw [List.find?_cons_of_pos _ hp, List.find?_cons_of_pos _ (by simp [hyr, hp])]
      simp [hF y yr hyr]
    | false =>
      rw [List.find?_cons_of_neg _ (by simp [hp]),
        List.find?_cons_of_neg _ (by simp [hyr, hp])]
      exact ih rows' hrows'

/-! Claim theorems. -/

/-- C1: the spec requires the annuity math of calculate_keren_fv and
calculate_personal_fv_pretax to fall back to monthly_contribution × months
when the derived monthly rate is exactly zero, and never divide by zero.
The code has no such guard: with net return 0 (derived monthly rate
(1+0)^(1/12) - 1 = 0), positive contribution and positive years, the
annuity expression divides by zero (Python raises ZeroDivisionError),
modelled here as the functions returning none. -/
theorem c1_zero_monthly_rate_divides :
    calculate_keren_fv 0 0 1 100 = none ∧
    calculate_personal_fv_pretax 0 0 1 100 = none := by
  constructor <;>
    norm_num [calculate_keren_fv, calculate_personal_fv_pretax, Real.one_rpow]

/-- C6 counterexample: difference_pct is not difference divided by the fund
value; the code multiplies the ratio by 100.  At fund value 200 and personal
after-tax value 300, difference_pct is 50 while difference / fund is 1/2. -/
theorem c6_difference_pct_counterexample :
    ¬ ((YearlyResult.mk 1 200 300 300 false).difference_pct =
        (YearlyResult.mk 1 200 300 300 false).difference /
          (YearlyResult.mk 1 200 300 300 false).keren_fv) := by
  norm_num [YearlyResult.difference_pct, YearlyResult.difference]

/-- C6 amended: for every YearlyResult, difference equals the personal
after-tax value minus the fund value, and difference_pct equals difference
divided by the fund value and multiplied by 100 (a percentage), with
difference_pct equal to 0 when the fund value is 0. -/
theorem c6_difference_fields_amended (yr : YearlyResult) :
    yr.difference = yr.personal_fv_aftertax - yr.keren_fv ∧
    (yr.keren_fv = 0 → yr.difference_pct = 0) ∧
    (yr.keren_fv ≠ 0 →
      yr.difference_pct = yr.difference / yr.keren_fv * 100) := by
  refine ⟨rfl, fun h => ?_, fun h => ?_⟩ <;>
    simp [YearlyResult.difference_pct, YearlyResult.difference, h]

/-- C6 witness: the amended statement evaluated at a concrete row with
nonzero fund value. -/
theorem c6_difference_fields_witness :
    (YearlyResult.mk 1 2 3 3 false).difference_pct =
      (YearlyResult.mk 1 2 3 3 false).difference /
        (YearlyResult.mk 1 2 3 3 false).keren_fv * 100 :=
  (c6_difference_fields_amended (YearlyResult.mk 1 2 3 3 false)).2.2 (by norm_num)

/-- C7: for horizons of at least one year, calculate_required_return returns
the unbounded/impossible sentinel (none, the float inf of the code) exactly
when the denominator 1 - tax_rate is ≤ 0 or the numerator
(1 + fund_net_return)^years - tax_rate is ≤ 0, and otherwise returns the
finite closed-form value ((numerator/denominator)^(1/years)) - 1. -/
theorem c7_required_return_sentinel_iff (kr τ : ℝ) (y : ℕ) (hy : 1 ≤ y) :
    (calculate_required_return kr τ y = none ↔
      1 - τ ≤ 0 ∨ (1 + kr) ^ y - τ ≤ 0) ∧
    (0 < 1 - τ → 0 < (1 + kr) ^ y - τ →
      calculate_required_return kr τ y =
        some ((((1 + kr) ^ y - τ) / (1 - τ)) ^ ((1 : ℝ) / (y : ℝ)) - 1)) := by
  constructor
  · simp only [calculate_required_return]
    split_ifs with h
    · exact iff_of_true rfl h
    · exact iff_of_false (by simp) h
  · intro h1 h2
    simp only [calculate_required_return]
    rw [if_neg]
    push_neg
    exact ⟨h1, h2⟩

/-- C7 witness: the characterization applied at fund net return 1, tax rate
0, horizon 1. -/
theorem c7_required_return_sentinel_witness :
    (calculate_required_return 1 0 1 = none ↔
      (1 : ℝ) - 0 ≤ 0 ∨ ((1 : ℝ) + 1) ^ (1 : ℕ) - 0 ≤ 0) ∧
    (0 < (1 : ℝ) - 0 → 0 < ((1 : ℝ) + 1) ^ (1 : ℕ) - 0 →
      calculate_required_return 1 0 1 =
        some (((((1 : ℝ) + 1) ^ (1 : ℕ) - 0) / (1 - 0)) ^
          ((1 : ℝ) / ((1 : ℕ) : ℝ)) - 1)) :=
  c7_required_return_sentinel_iff 1 0 1 (by norm_num)

/-- C8: with a 100 percent capital-gains tax rate, the personal after-tax
value is exactly the contributed principal: principal plus
monthly_contribution × (12 × years), for every return rate. -/
theorem c8_full_tax_keeps_principal (P r m : ℝ) (y : ℕ)
    (hP : 0 ≤ P) (hm : 0 ≤ m) :
    calculate_personal_fv_aftertax P r y 1 m = P + m * (12 * y) := by
  simp only [calculate_personal_fv_aftertax]
  have hlump : (if P > 0 then P + (P * (1 + r) ^ y - P) * (1 - 1) else 0) = P := by
    split_ifs with h
    · ring
    · linarith [le_antisymm (not_lt.mp h) hP]
  rw [hlump]
  by_cases hc : m > 0 ∧ y > 0
  · rw [if_pos hc]
    have hterm : ∀ month ∈ Finset.Icc 1 (y * 12),
        (m + (m * (1 + ((1 + r) ^ ((1 : ℝ) / 12) - 1)) ^ (y * 12 - month + 1) -
          m) * (1 - 1)) = m := by
      intro month _
      ring
    rw [Finset.sum_congr rfl hterm, Finset.sum_const, Nat.card_Icc]
    push_cast [nsmul_eq_mul]
    ring
  · rw [if_neg hc]
    push_neg at hc
    rcases eq_or_lt_of_le hm with hm0 | hmpos
    · rw [← hm0]
      ring
    · have hy0 : y = 0 := Nat.eq_zero_of_not_pos (by simpa using hc hmpos)
      rw [hy0]
      push_cast
      ring

/-- C8 witness: the theorem applied at principal 2, return 3, one year,
contribution 1. -/
theorem c8_full_tax_keeps_principal_witness :
    (0 : ℝ) ≤ 2 ∧ (0 : ℝ) ≤ 1 ∧
    calculate_personal_fv_aftertax 2 3 1 1 1 = 2 + 1 * (12 * 1) := by
  refine ⟨by norm_num, by norm_num, ?_⟩
  have h := c8_full_tax_keeps_principal 2 3 1 1 (by norm_num) (by norm_num)
  simpa using h

/-- C3 counterexample: a zero capital-gains tax rate is not a no-op.  With
principal 0, return 4095 (so the derived monthly rate is exactly
4096^(1/12) - 1 = 1), one year and contribution 1, the pretax closed form
gives the ordinary-annuity value 4095, while the after-tax per-month loop
grows each contribution one extra month and gives 8190 even at tax 0. -/
theorem c3_zero_tax_counterexample :
    ¬ (calculate_personal_fv_pretax 0 4095 1 1 =
        some (calculate_personal_fv_aftertax 0 4095 1 0 1)) := by
  have hroot : ((1 : ℝ) + 4095) ^ ((1 : ℝ) / 12) = 2 := by
    have hb : ((1 : ℝ) + 4095) = (2 : ℝ) ^ (12 : ℕ) := by norm_num
    rw [hb, ← Real.rpow_natCast (2 : ℝ) 12, ← Real.rpow_mul (by norm_num)]
    norm_num
  have hpre : calculate_personal_fv_pretax 0 4095 1 1 = some 4095 := by
    simp only [calculate_personal_fv_pretax, hroot]
    norm_num
  have haft : calculate_personal_fv_aftertax 0 4095 1 0 1 = 8190 := by
    simp only [calculate_personal_fv_aftertax, hroot]
    rw [if_neg (by norm_num), if_pos (by norm_num : (1 : ℝ) > 0 ∧ (1 : ℕ) > 0)]
    rw [show (1 : ℕ) * 12 = 12 from rfl, ← Nat.Ico_succ_right,
      Finset.sum_Ico_eq_sum_range]
    norm_num [Finset.sum_range_succ]
  rw [hpre, haft]
  norm_num

/-- C3 amended: compute_personal_value_aftertax with tax rate 0 agrees with
compute_personal_value_pretax exactly when there are no periodic
contributions in play: monthly contribution 0 or years 0 (the lump-sum legs
always agree for nonnegative principal; the contribution legs use different
timing conventions and differ otherwise). -/
theorem c3_zero_tax_noop_amended (P r : ℝ) (y : ℕ) (m : ℝ)
    (hP : 0 ≤ P) (hm : m = 0 ∨ y = 0) :
    calculate_personal_fv_pretax P r y m =
      some (calculate_personal_fv_aftertax P r y 0 m) := by
  have hlump : ∀ n : ℕ, (if P > 0 then
      P + (P * (1 + r) ^ n - P) * (1 - 0) else 0) = P * (1 + r) ^ n := by
    intro n
    split_ifs with h
    · ring
    · have hP0 : P = 0 := le_antisymm (not_lt.mp h) hP
      rw [hP0]
      ring
  rcases hm with hm | hy
  · rw [hm, pretax_no_contrib, aftertax_no_contrib, hlump y]
  · rw [hy]
    simp only [calculate_personal_fv_pretax, calculate_personal_fv_aftertax]
    rw [if_neg (show ¬(m > 0 ∧ (0 : ℕ) > 0) by simp),
      if_neg (show ¬(m > 0 ∧ (0 : ℕ) > 0) by simp), hlump 0]

/-- C3 witness: the amended statement at principal 1, return 5, zero years,
contribution 3. -/
theorem c3_zero_tax_noop_witness :
    (0 : ℝ) ≤ 1 ∧ ((3 : ℝ) = 0 ∨ (0 : ℕ) = 0) ∧
    calculate_personal_fv_pretax 1 5 0 3 =
      some (calculate_personal_fv_aftertax 1 5 0 0 3) :=
  ⟨by norm_num, Or.inr rfl,
    c3_zero_tax_noop_amended 1 5 0 3 (by norm_num) (Or.inr rfl)⟩

/-- C5: the required-return inversion round-trips exactly over the reals:
whenever calculate_required_return returns a finite rate r for a horizon of
at least one year, the after-tax personal value of a nonnegative lump sum at
rate r over that horizon equals the locked-fund value of the same lump sum
(no contributions on either side). -/
theorem c5_required_return_roundtrip (P kr τ : ℝ) (y : ℕ) (r : ℝ)
    (hy : 1 ≤ y) (hP : 0 ≤ P)
    (h : calculate_required_return kr τ y = some r) :
    calculate_keren_fv P kr y 0 =
      some (calculate_personal_fv_aftertax P r y τ 0) := by
  simp only [calculate_required_return] at h
  by_cases hcond : 1 - τ ≤ 0 ∨ (1 + kr) ^ y - τ ≤ 0
  · rw [if_pos hcond] at h
    exact absurd h (by simp)
  · rw [if_neg hcond] at h
    push_neg at hcond
    obtain ⟨hden, hnum⟩ := hcond
    have hr : r = (((1 + kr) ^ y - τ) / (1 - τ)) ^ ((1 : ℝ) / (y : ℝ)) - 1 :=
      (Option.some.inj h).symm
    have hxnn : (0 : ℝ) ≤ ((1 + kr) ^ y - τ) / (1 - τ) :=
      le_of_lt (div_pos hnum hden)
    have hpow : (1 + r) ^ y = ((1 + kr) ^ y - τ) / (1 - τ) := by
      rw [hr]
      have hone : (1 : ℝ) +
          ((((1 + kr) ^ y - τ) / (1 - τ)) ^ ((1 : ℝ) / (y : ℝ)) - 1) =
          (((1 + kr) ^ y - τ) / (1 - τ)) ^ ((1 : ℝ) / (y : ℝ)) := by ring
      rw [hone, one_div, Real.rpow_inv_natCast_pow hxnn (by omega)]
    rw [keren_fv_no_contrib, aftertax_no_contrib, Option.some.injEq]
    rcases eq_or_lt_of_le hP with hP0 | hPpos
    · rw [← hP0]
      norm_num
    · rw [if_pos hPpos, hpow]
      field_simp
      ring

/-- C5 witness: the round-trip at fund return 1, tax 0, horizon 1,
principal 3, where the required return is exactly 1. -/
theorem c5_required_return_roundtrip_witness :
    calculate_required_return 1 0 1 = some 1 ∧
    calculate_keren_fv 3 1 1 0 =
      some (calculate_personal_fv_aftertax 3 1 1 0 0) := by
  have h : calculate_required_return 1 0 1 = some 1 := by
    simp only [calculate_required_return]
    rw [if_neg (by norm_num)]
    norm_num [Real.rpow_one]
  exact ⟨h, c5_required_return_roundtrip 3 1 0 1 1 le_rfl (by norm_num) h⟩

/-- C10 counterexample: find_breakeven_year does not return None on every
input with lockup ≥ max_years.  With fund net return 0, monthly contribution
1 and lockup 10 > max_years 5, the fund-value computation at the lockup
divides by zero before the (empty) search loop is reached, so the call
raises instead of returning None (modelled as the outer none). -/
theorem c10_empty_range_counterexample :
    find_breakeven_year 0 0 0 0 1 5 10 = none := by
  rw [find_breakeven_year]
  have h : calculate_keren_fv 0 0 10 1 = none := by
    norm_num [calculate_keren_fv, Real.one_rpow]
  rw [h]
  rfl

/-- C10 amended: whenever find_breakeven_year returns normally (no division
by zero), it returns None if the lockup is at least max_years (empty search
range), and any year it returns lies strictly above the lockup and at most
max_years. -/
theorem c10_breakeven_range_amended (p kr pr τ m : ℝ)
    (max_years lockup : ℕ) (r : Option ℕ)
    (h : find_breakeven_year p kr pr τ m max_years lockup = some r) :
    (max_years ≤ lockup → r = none) ∧
    (∀ y, r = some y → lockup < y ∧ y ≤ max_years) := by
  constructor
  · intro hle
    simp only [find_breakeven_year, Option.bind_eq_some] at h
    obtain ⟨kal, _, hloop⟩ := h
    rw [show max_years - lockup = 0 by omega] at hloop
    exact (Option.some.inj hloop).symm
  · intro y hy
    subst hy
    exact breakeven_year_bounds p kr pr τ m max_years lockup y h

/-- C10 witness: at principal 1, all rates 0, no contributions, max_years 1
and lockup 2 the function returns normally with result None. -/
theorem c10_breakeven_range_witness :
    find_breakeven_year 1 0 0 0 0 1 2 = some none ∧
    ((1 : ℕ) ≤ 2 → (none : Option ℕ) = none) := by
  have h : find_breakeven_year 1 0 0 0 0 1 2 = some none := by
    rw [find_breakeven_year, keren_fv_no_contrib]
    rfl
  exact ⟨h, fun hle =>
    (c10_breakeven_range_amended 1 0 0 0 0 1 2 none h).1 hle⟩

/-- C9 counterexample: the grid does not always contain
len(personal_returns) × len(tax_rates) cells, because each row is a dict
keyed by the formatted whole-percent tax label and equally-labelled tax
rates overwrite the same key.  With personal_returns = [0] and the
duplicated tax_rates = [0, 0], the only row holds a single cell although
the claim demands 1 × 2. -/
theorem c9_cell_count_counterexample :
    generate_sensitivity_matrix 1 0 [0] [0, 0] 0 1 1 =
      some [[((0 : ℤ), (none : Option ℕ))]] ∧
    ([((0 : ℤ), (none : Option ℕ))] : List (ℤ × Option ℕ)).length ≠
      ([0, 0] : List ℝ).length := by
  have hb : find_breakeven_year 1 0 0 0 0 1 1 = some none := by
    rw [find_breakeven_year, keren_fv_no_contrib]
    rfl
  have htl : taxLabel 0 = 0 := by
    norm_num [taxLabel, Int.fract_zero, round_zero]
  refine ⟨?_, by norm_num⟩
  rw [generate_sensitivity_matrix]
  simp [mapO, sensitivityRow, dictInsert, hb, htl]

/-- C9 amended: whenever the sensitivity grid is built without a raised
error, it has exactly one row per personal return; each row has at most one
cell per tax rate, with exactly len(tax_rates) cells when the whole-percent
column labels of the tax rates are pairwise distinct (equally-labelled tax
rates overwrite the same dict key and collapse into one cell); and every
non-sentinel cell is a positive integer year at most the search ceiling,
never negative, never fractional. -/
theorem c9_sensitivity_matrix_amended
    (principal kr m : ℝ) (prs trs : List ℝ) (max_years lockup : ℕ)
    (M : List (List (ℤ × Option ℕ)))
    (h : generate_sensitivity_matrix principal kr prs trs m
      max_years lockup = some M) :
    M.length = prs.length ∧
    (∀ row ∈ M, row.length ≤ trs.length) ∧
    ((trs.map taxLabel).Nodup → ∀ row ∈ M, row.length = trs.length) ∧
    (∀ row ∈ M, ∀ cell ∈ row, ∀ y : ℕ,
      cell.2 = some y → 1 ≤ y ∧ y ≤ max_years) := by
  rw [generate_sensitivity_matrix] at h
  refine ⟨mapO_length _ _ _ h, ?_, ?_, ?_⟩
  · intro row hrow
    obtain ⟨pr, _, hpr⟩ := mapO_mem _ _ _ h row hrow
    simpa using sensitivityRow_length_le principal kr pr m max_years lockup
      trs [] row hpr
  · intro hnd row hrow
    obtain ⟨pr, _, hpr⟩ := mapO_mem _ _ _ h row hrow
    simpa using sensitivityRow_length_nodup principal kr pr m max_years
      lockup trs [] row hnd (by simp) hpr
  · intro row hrow cell hcell y hy
    obtain ⟨pr, _, hpr⟩ := mapO_mem _ _ _ h row hrow
    rcases sensitivityRow_cells principal kr pr m max_years lockup trs []
        row hpr cell hcell with hmem | ⟨tr, htr⟩
    · simp at hmem
    · rw [hy] at htr
      have hb := breakeven_year_bounds principal kr pr tr m max_years
        lockup y htr
      omega

/-- C9 witness: the amended statement applied to a concrete successfully
built 1 × 1 grid whose tax-label list is duplicate-free. -/
theorem c9_sensitivity_matrix_witness :
    generate_sensitivity_matrix 1 0 [0] [0] 0 1 1 =
      some [[((0 : ℤ), (none : Option ℕ))]] ∧
    ([[((0 : ℤ), (none : Option ℕ))]] :
      List (List (ℤ × Option ℕ))).length = ([(0 : ℝ)] : List ℝ).length ∧
    (∀ row ∈ ([[((0 : ℤ), (none : Option ℕ))]] :
        List (List (ℤ × Option ℕ))),
      row.length = ([(0 : ℝ)] : List ℝ).length) := by
  have hb : find_breakeven_year 1 0 0 0 0 1 1 = some none := by
    rw [find_breakeven_year, keren_fv_no_contrib]
    rfl
  have htl : taxLabel 0 = 0 := by
    norm_num [taxLabel, Int.fract_zero, round_zero]
  have h : generate_sensitivity_matrix 1 0 [0] [0] 0 1 1 =
      some [[((0 : ℤ), (none : Option ℕ))]] := by
    rw [generate_sensitivity_matrix]
    simp [mapO, sensitivityRow, dictInsert, hb, htl]
  refine ⟨h, ?_, ?_⟩
  · exact (c9_sensitivity_matrix_amended 1 0 0 [0] [0] 1 1 _ h).1
  · exact (c9_sensitivity_matrix_amended 1 0 0 [0] [0] 1 1 _ h).2.2.1
      (by simp)

/-- C4: whenever run_comparison succeeds, every yearly row whose year is at
most the lockup year has personal pre-tax value, personal post-tax value and
fund value all exactly equal. -/
theorem c4_lockup_invariant (inputs : InvestmentInputs)
    (res : ComparisonResult) (h : run_comparison inputs = some res) :
    ∀ yr ∈ res.yearly_results, yr.year ≤ inputs.keren_lockup_years →
      yr.personal_fv_pretax = yr.keren_fv ∧
      yr.personal_fv_aftertax = yr.keren_fv := by
  simp only [run_comparison, Option.bind_eq_some, Option.some.injEq] at h
  obtain ⟨kal, hkal, acc, hacc, rfl⟩ := h
  rw [comparisonLoop_char _ _
    (fun y yr hy => runYear_year inputs _ _ _ kal y yr hy)] at hacc
  cases hrows : mapO (runYear inputs inputs.get_keren_net_return
      inputs.get_personal_effective_return inputs.keren_lockup_years kal)
      (List.range' 1 inputs.horizon_years) with
  | none => rw [hrows] at hacc; simp at hacc
  | some rows =>
    rw [hrows] at hacc
    simp only [Option.map_some', Option.some.injEq] at hacc
    subst hacc
    intro yr hmem hyle
    obtain ⟨y, hymem, hyr⟩ := mapO_mem _ _ _ hrows yr (by simpa using hmem)
    simp only [runYear, Option.bind_eq_some, Option.some.injEq] at hyr
    obtain ⟨kfv, hk, pa, hpa, rfl⟩ := hyr
    have hylockup : y ≤ inputs.keren_lockup_years := by simpa using hyle
    rw [personalPair, if_pos hylockup] at hpa
    obtain rfl := Option.some.inj hpa
    exact ⟨rfl, rfl⟩

/-- Concrete input record for the C4 witness: principal 1, no contributions,
all rates 0, horizon 1, lockup 1. -/
def c4Inputs : InvestmentInputs :=
  ⟨1, 0, 0, 0, true, 0, 0, 0, false, 1, 1⟩

/-- Concrete comparison outcome for the C4 witness. -/
def c4Res : ComparisonResult :=
  ⟨c4Inputs, [⟨1, 1, 1, 1, false⟩], none, 0, 0⟩

/-- C4 witness: the lockup invariant applied to a concrete successful run
and its only row, which lies at the lockup year. -/
theorem c4_lockup_invariant_witness :
    run_comparison c4Inputs = some c4Res ∧
    YearlyResult.mk 1 1 1 1 false ∈ c4Res.yearly_results ∧
    (YearlyResult.mk 1 1 1 1 false).year ≤ c4Inputs.keren_lockup_years ∧
    ((YearlyResult.mk 1 1 1 1 false).personal_fv_pretax =
        (YearlyResult.mk 1 1 1 1 false).keren_fv ∧
      (YearlyResult.mk 1 1 1 1 false).personal_fv_aftertax =
        (YearlyResult.mk 1 1 1 1 false).keren_fv) := by
  have hr1 : List.range' 1 1 = [1] := rfl
  have h : run_comparison c4Inputs = some c4Res := by
    norm_num [run_comparison, c4Inputs, c4Res,
      InvestmentInputs.get_keren_net_return,
      InvestmentInputs.get_personal_effective_return, comparisonLoop,
      runYear, personalPair, keren_fv_no_contrib, hr1]
  have hmem : YearlyResult.mk 1 1 1 1 false ∈ c4Res.yearly_results := by
    simp [c4Res]
  exact ⟨h, hmem, by norm_num [c4Inputs],
    c4_lockup_invariant c4Inputs c4Res h _ hmem (by norm_num [c4Inputs])⟩

/-- C2: whenever run_comparison succeeds with max_years equal to the
horizon, find_breakeven_year (on the same derived rates, contribution and
lockup) returns exactly the first year strictly greater than the lockup in
run_comparison's yearly series whose keren_wins flag is false, and returns
no year exactly when no such year exists within the horizon. -/
theorem c2_breakeven_consistent_with_run_comparison
    (inputs : InvestmentInputs) (res : ComparisonResult)
    (h : run_comparison inputs = some res) :
    find_breakeven_year inputs.principal inputs.get_keren_net_return
      inputs.get_personal_effective_return inputs.capital_gains_tax
      inputs.monthly_contribution inputs.horizon_years
      inputs.keren_lockup_years =
      some (firstPersonalWinYear inputs.keren_lockup_years
        res.yearly_results) := by
  simp only [run_comparison, Option.bind_eq_some, Option.some.injEq] at h
  obtain ⟨kal, hkal, acc, hacc, rfl⟩ := h
  rw [comparisonLoop_char _ _
    (fun y yr hy => runYear_year inputs _ _ _ kal y yr hy)] at hacc
  cases hrows : mapO (runYear inputs inputs.get_keren_net_return
      inputs.get_personal_effective_return inputs.keren_lockup_years kal)
      (List.range' 1 inputs.horizon_years) with
  | none => rw [hrows] at hacc; simp at hacc
  | some rows =>
    rw [hrows] at hacc
    simp only [Option.map_some', Option.some.injEq] at hacc
    subst hacc
    have hyearF : ∀ (y : ℕ) (yr : YearlyResult),
        runYear inputs inputs.get_keren_net_return
          inputs.get_personal_effective_return inputs.keren_lockup_years kal
          y = some yr → yr.year = y :=
      fun y yr hy => runYear_year inputs _ _ _ kal y yr hy
    have hforall := mapO_forall_some _ _ _ hrows
    rw [find_breakeven_year, hkal]
    simp only [Option.some_bind, List.nil_append]
    have hloop : breakevenLoop
        (breakevenCheck inputs.principal inputs.get_keren_net_return
          inputs.get_personal_effective_return inputs.capital_gains_tax
          inputs.monthly_contribution inputs.keren_lockup_years kal)
        (List.range' (inputs.keren_lockup_years + 1)
          (inputs.horizon_years - inputs.keren_lockup_years)) =
        some ((List.range' (inputs.keren_lockup_years + 1)
          (inputs.horizon_years - inputs.keren_lockup_years)).find?
            fun y => ((runYear inputs inputs.get_keren_net_return
                inputs.get_personal_effective_return
                inputs.keren_lockup_years kal y).map
              fun yr => !yr.keren_wins).getD false) := by
      apply breakevenLoop_eq_find?
      intro y hy
      have hb := List.mem_range'_1.mp hy
      obtain ⟨yr, hyr⟩ := hforall y (List.mem_range'_1.mpr (by omega))
      rw [breakevenCheck_of_runYear inputs _ _ _ kal y yr (by omega) hyr,
        hyr]
      rfl
    rw [hloop, Option.some.injEq]
    have hB := find?_mapO _ (fun yr =>
        decide (inputs.keren_lockup_years < yr.year) && !yr.keren_wins)
      hyearF _ _ hrows
    rw [firstPersonalWinYear, hB]
    rw [find?_range'_split _ inputs.keren_lockup_years inputs.horizon_years
      (by
        intro y hyle
        cases hFy : runYear inputs inputs.get_keren_net_return
            inputs.get_personal_effective_return inputs.keren_lockup_years
            kal y with
        | none => simp [hFy]
        | some yr =>
          have hyy := hyearF y yr hFy
          simp [hFy, hyy, Nat.not_lt.mpr hyle])]
    apply list_find?_congr
    intro y hy
    have hb := List.mem_range'_1.mp hy
    obtain ⟨yr, hyr⟩ := hforall y (List.mem_range'_1.mpr (by omega))
    have hyy := hyearF y yr hyr
    rw [hyr]
    have hlt : inputs.keren_lockup_years < y := by omega
    simp [hyy, hlt]

/-- Concrete input record for the C2 witness: principal 1, no contributions,
all rates 0, horizon 2, lockup 1. -/
def c2Inputs : InvestmentInputs :=
  ⟨1, 0, 0, 0, true, 0, 0, 0, false, 2, 1⟩

/-- Concrete comparison outcome for the C2 witness: the personal path ties
the fund from year 2 on, so the first personal-win year is 2. -/
def c2Res : ComparisonResult :=
  ⟨c2Inputs, [⟨1, 1, 1, 1, false⟩, ⟨2, 1, 1, 1, false⟩], some 2, 0, 0⟩

/-- C2 witness: the consistency theorem applied to a concrete successful
run. -/
theorem c2_breakeven_consistency_witness :
    run_comparison c2Inputs = some c2Res ∧
    find_breakeven_year c2Inputs.principal c2Inputs.get_keren_net_return
      c2Inputs.get_personal_effective_return c2Inputs.capital_gains_tax
      c2Inputs.monthly_contribution c2Inputs.horizon_years
      c2Inputs.keren_lockup_years =
      some (firstPersonalWinYear c2Inputs.keren_lockup_years
        c2Res.yearly_results) := by
  have hr2 : List.range' 1 2 = [1, 2] := rfl
  have h : run_comparison c2Inputs = some c2Res := by
    norm_num [run_comparison, c2Inputs, c2Res,
      InvestmentInputs.get_keren_net_return,
      InvestmentInputs.get_personal_effective_return, comparisonLoop,
      runYear, personalPair, keren_fv_no_contrib, pretax_no_contrib,
      aftertax_no_contrib, hr2]
  exact ⟨h, c2_breakeven_consistent_with_run_comparison c2Inputs c2Res h⟩

end

end KerenCalc
